import Mathlib

/-!
Verification model of `src/shapex.ts` (the ShapeX event-dispatch and
state-diffing engine).

Modelling conventions:
* JavaScript values are the inductive `JSVal`.  An object carries a heap
  identity `id : Nat` so that the strict (in)equality operators `===`/`!==`,
  which compare objects by reference, can be expressed; `fields` lists the
  object's own enumerable properties in insertion order (a JS array is an
  object whose keys are the index strings `"0"`, `"1"`, ...).
* JavaScript arrays of subscriptions are mutable heap objects shared by
  reference (`_subscriptions.get` returns the live array).  The model keeps a
  heap `List (List SubRec)`; a registry entry maps a listener name to the
  index ("reference") of its array in the heap, and `Array.prototype.push`
  mutates the heap cell in place, exactly as in the source.
* Callback functions are referenced by an index into a fixed environment
  `Env`, because a host callback is an arbitrary closure that may also call
  the instance's registry methods (`subscribe` / `subscribeOnce` /
  `unsubscribe`) while it runs; a callback therefore receives and returns the
  registry portion of the instance state.  Callbacks that re-enter `dispatch`
  through the closure (rather than through the returned `dispatch` field) are
  outside the model.
* `dispatch` is recursive and the source relies on the host event graph for
  termination, so the model threads a fuel counter; exhausted fuel returns the
  machine state unchanged.  An `Invocation` trace is ghost instrumentation
  recording each callback call (which callback, with which state and data).
-/

set_option maxHeartbeats 1000000

namespace ShapeX

/-- A JavaScript runtime value.  `obj id fields` is an object with heap
identity `id` and own enumerable properties `fields` in insertion order. -/
inductive JSVal where
  | num (n : Int)
  | str (s : String)
  | bool (b : Bool)
  | jsNull
  | undefinedV
  | obj (id : Nat) (fields : List (String × JSVal))

/-- JavaScript truthiness: `undefined`, `null`, `false`, `0` and `""` are
falsy, every object (and array) is truthy.  (`NaN` is not representable in
this integer model.) -/
def truthy : JSVal → Bool
  | .num n => n ≠ 0
  | .str s => s ≠ ""
  | .bool b => b
  | .jsNull => false
  | .undefinedV => false
  | .obj _ _ => true

/-- JavaScript strict equality `===`: value equality on primitives, reference
(heap identity) equality on objects. -/
def strictEq : JSVal → JSVal → Bool
  | .num a, .num b => a == b
  | .str a, .str b => a == b
  | .bool a, .bool b => a == b
  | .jsNull, .jsNull => true
  | .undefinedV, .undefinedV => true
  | .obj i _, .obj j _ => i == j
  | _, _ => false

mutual

/-- `paths` of `changedState` (shapex.ts lines 176-195): for each own key of
`state` push `(path ++ "." ++ key, value)` and, when the value satisfies
`typeof value === "object" && value !== null` (i.e. it is an object), also
push the recursive paths of the value.  On a non-object the `for ... in` loop
body never runs, so the result is `[]`, which is what the `obj`-only recursion
below returns for every non-object value. -/
def paths : JSVal → String → List (String × JSVal)
  | .obj _ fields, path => pathsFields fields path
  | _, _ => []

/-- The `for (const key in state)` loop body of `paths`, walking the field
list in insertion order. -/
def pathsFields : List (String × JSVal) → String → List (String × JSVal)
  | [], _ => []
  | (key, value) :: rest, path =>
    (path ++ "." ++ key, value) ::
      (paths value (path ++ "." ++ key) ++ pathsFields rest path)

end

/-- `[...new Set(list)]`: de-duplication keeping the first occurrence of each
element, preserving order.  `seen` accumulates the elements already kept. -/
def dedupFirst (seen : List String) : List String → List String
  | [] => []
  | x :: xs =>
    if seen.contains x then dedupFirst seen xs
    else x :: dedupFirst (x :: seen) xs

/-- `oldPaths.find((x) => x.path === path)?.value`: the found value, or JS
`undefined` when `find` fails. -/
def valueAt (ps : List (String × JSVal)) (p : String) : JSVal :=
  match ps.find? (fun x => x.1 == p) with
  | some x => x.2
  | none => .undefinedV

/-- `differ` inside `changedState` (shapex.ts lines 197-221): path lists of
both trees, `added` / `removed` / `same` by path-key membership, `changed` as
the `same` paths whose values satisfy `oldValue !== newValue` (strict
inequality, hence reference comparison on objects), and the de-duplicated
concatenation `[...new Set([...added, ...removed, ...changed])]`. -/
def differ (oldState newState : JSVal) : List String :=
  let oldPaths := paths oldState "$"
  let oldPathKeys := oldPaths.map Prod.fst
  let newPaths := paths newState "$"
  let newPathKeys := newPaths.map Prod.fst
  let added := newPathKeys.filter (fun p => !(oldPathKeys.contains p))
  let removed := oldPathKeys.filter (fun p => !(newPathKeys.contains p))
  let same := oldPathKeys.filter (fun p => newPathKeys.contains p)
  let changed := same.filter
    (fun p => !(strictEq (valueAt oldPaths p) (valueAt newPaths p)))
  dedupFirst [] (added ++ removed ++ changed)

/-- `changedState` (shapex.ts lines 172-224): builds `differ` and applies it
to the two states; the root path string is `"$"`. -/
def changedState (oldState newState : JSVal) : List String :=
  differ oldState newState

/-- A subscription record (`Subscription`, shapex.ts lines 40-44): the
listener name it belongs to, the callback (as a reference into the host
environment `Env`) and the one-shot flag. -/
structure SubRec where
  listener : String
  cbRef : Nat
  once : Bool
deriving DecidableEq

/-- The registry portion of a ShapeX instance: the heap of subscription
arrays (JS arrays are mutable objects shared by reference; an array is
identified by its index in `heap`), the `_subscriptions` map in insertion
order (listener name → heap reference of its array), and the
`subscriptionId` counter. -/
structure Reg where
  heap : List (List SubRec)
  subs : List (String × Nat)
  nextId : Nat
deriving DecidableEq

/-- `Map.prototype.has`. -/
def mapHas (m : List (String × Nat)) (k : String) : Bool :=
  m.any (fun e => e.1 == k)

/-- `Map.prototype.get` (`none` = `undefined`). -/
def mapGet (m : List (String × Nat)) (k : String) : Option Nat :=
  (m.find? (fun e => e.1 == k)).map Prod.snd

/-- `Map.prototype.set`: replaces the value of an existing key in place
(keeping its insertion-order position), otherwise appends the new entry. -/
def mapSet : List (String × Nat) → String → Nat → List (String × Nat)
  | [], k, v => [(k, v)]
  | e :: rest, k, v => if e.1 == k then (k, v) :: rest else e :: mapSet rest k v

/-- `Map.prototype.delete`. -/
def mapDelete (m : List (String × Nat)) (k : String) : List (String × Nat) :=
  m.filter (fun e => e.1 != k)

/-- Dereference a heap array (out-of-range never occurs in runs of the
model; it yields the empty array). -/
def heapGet (h : List (List SubRec)) (r : Nat) : List SubRec :=
  h.getD r []

/-- In-place mutation of a heap array (`Array.prototype.push` lands here). -/
def heapSet (h : List (List SubRec)) (r : Nat) (v : List SubRec) :
    List (List SubRec) :=
  h.set r v

/-- `subscribe` (shapex.ts lines 112-130): create an empty array for the
listener if absent, push a `once: false` record onto the listener's (live)
array, and return the pre-incremented `subscriptionId`. -/
def subscribe (reg : Reg) (listener : String) (cbRef : Nat) : Reg × Nat :=
  let reg1 :=
    if !(mapHas reg.subs listener) then
      { reg with subs := mapSet reg.subs listener reg.heap.length,
                 heap := reg.heap ++ [[]] }
    else reg
  let reg2 :=
    match mapGet reg1.subs listener with
    | some r =>
      let arr := heapGet reg1.heap r
      { reg1 with heap := heapSet reg1.heap r (arr ++ [SubRec.mk listener cbRef false]) }
    | none => reg1
  ({ reg2 with nextId := reg2.nextId + 1 }, reg2.nextId + 1)

/-- `subscribeOnce` (shapex.ts lines 139-157): identical to `subscribe` but
the pushed record has `once: true`. -/
def subscribeOnce (reg : Reg) (listener : String) (cbRef : Nat) : Reg × Nat :=
  let reg1 :=
    if !(mapHas reg.subs listener) then
      { reg with subs := mapSet reg.subs listener reg.heap.length,
                 heap := reg.heap ++ [[]] }
    else reg
  let reg2 :=
    match mapGet reg1.subs listener with
    | some r =>
      let arr := heapGet reg1.heap r
      { reg1 with heap := heapSet reg1.heap r (arr ++ [SubRec.mk listener cbRef true]) }
    | none => reg1
  ({ reg2 with nextId := reg2.nextId + 1 }, reg2.nextId + 1)

/-- `unsubscribe` (shapex.ts lines 159-163): delete the whole map entry when
present, otherwise do nothing. -/
def unsubscribe (reg : Reg) (listener : String) : Reg :=
  if mapHas reg.subs listener then
    { reg with subs := mapDelete reg.subs listener }
  else reg

/-- `subscriptionCount` (shapex.ts lines 301-307): the argument has type
`string | null` and is tested with JS truthiness (`if (eventName)`), so both
`null` and the empty string fall through to counting the map's keys;
otherwise `_subscriptions.get(eventName)?.length ?? 0`. -/
def subscriptionCount (reg : Reg) (eventName : Option String) : Nat :=
  match eventName with
  | some s =>
    if s ≠ "" then
      match mapGet reg.subs s with
      | some r => (heapGet reg.heap r).length
      | none => 0
    else reg.subs.length
  | none => reg.subs.length

/-- `subscriptions` (shapex.ts lines 314-316): `Array.from
(_subscriptions.keys())`, the map's keys in insertion order. -/
def subscriptions (reg : Reg) : List String :=
  reg.subs.map Prod.fst

/-- `SubscriptionResponseDispatch` (shapex.ts lines 5-8): target event name
`toEv` (modelling the source field `to`; `to` is reserved in Lean) and the
optional payload `w` (modelling the optional source field `with`, likewise
reserved). -/
structure DispatchReq where
  toEv : String
  w : Option JSVal

/-- The `dispatch` field of a `SubscriptionResponse`: either a single request
or an array of requests (`isSubscriptionResponseList`, shapex.ts lines 26-28,
distinguishes the two at runtime). -/
inductive DispatchField where
  | one (d : DispatchReq)
  | many (ds : List DispatchReq)

/-- `SubscriptionResponse` (shapex.ts lines 15-24): `stateF` models the
optional `state` field, `dispatchF` the optional `dispatch` field. -/
structure Response where
  stateF : Option JSVal
  dispatchF : Option DispatchField

/-- `EventCallback` (shapex.ts lines 34-38): `(state, data?) => response`.
The callback is a host closure that may additionally call the instance's
registry methods while it runs, so the registry is passed through it; a
callback that touches nothing returns its registry argument unchanged. -/
def EventCallback : Type := Reg → JSVal → Option JSVal → Reg × Response

/-- The host program's callback functions, indexed by reference.  A
`SubRec.cbRef` picks the function out of this environment. -/
def Env : Type := Nat → EventCallback

/-- Ghost record of one callback invocation: the subscription's stored
listener name and callback reference, the state passed as first argument,
and the data argument (`none` when the call was `callback(_state)`). -/
structure Invocation where
  listener : String
  cbRef : Nat
  stateArg : JSVal
  dataArg : Option JSVal

/-- The full mutable state of a ShapeX instance: `_state` (`stateV`) and the
registry, plus the ghost invocation trace. -/
structure DState where
  stateV : JSVal
  reg : Reg
  trace : List Invocation

mutual

/-- `dispatch` (shapex.ts lines 233-293).  Early return when
`!_subscriptions.has(to)`; otherwise `scopedSubsriptions` is the *live* array
reference `r` obtained from the map (`get(to) ?? []`; the `none` branch is
unreachable after `has`), the `for ... of` loop runs (`loopF`), and finally
`_subscriptions.set(to, remainingSubscriptions)` stores the freshly built
array (a new heap cell).  The local `callbackCount` of the source is written
but never read and is omitted.  `fuel` bounds the recursion depth; the source
relies on the host event graph for termination. -/
def dispatchF (env : Env) : Nat → String → Option JSVal → DState → DState
  | 0, _, _, ds => ds
  | fuel + 1, toEv, w, ds =>
    if mapHas ds.reg.subs toEv then
      match mapGet ds.reg.subs toEv with
      | some r =>
        let p := loopF env fuel r toEv w 0 [] ds
        let ds1 := p.1
        { ds1 with reg := { ds1.reg with
            subs := mapSet ds1.reg.subs toEv ds1.reg.heap.length,
            heap := ds1.reg.heap ++ [p.2] } }
      | none => ds
    else ds
  termination_by structural fuel => fuel

/-- The `for (const subscription of scopedSubsriptions)` loop of `dispatch`
(shapex.ts lines 247-290).  A JS array iterator reads the array's current
length at every step, so the loop indexes the *live* heap cell `r`: elements
pushed onto it while the loop runs are visited too.  Per iteration: invoke
the callback (`withData ? callback(_state, withData) : callback(_state)` —
JS truthiness on `withData`); if the response carries a defined `state`, diff
old against new, replace the state, and recursively dispatch every change
path; then process the response's `dispatch` request(s), each re-dispatched
with its `with` payload when that payload is truthy; finally retain the
subscription in `remainingSubscriptions` (`rem`) unless it is one-shot. -/
def loopF (env : Env) :
    Nat → Nat → String → Option JSVal → Nat → List SubRec → DState →
      DState × List SubRec
  | 0, _, _, _, _, rem, ds => (ds, rem)
  | fuel + 1, r, toEv, w, i, rem, ds =>
    match (heapGet ds.reg.heap r)[i]? with
    | none => (ds, rem)
    | some sub =>
      let dataArg := match w with
        | some v => if truthy v then some v else none
        | none => none
      let cr := env sub.cbRef ds.reg ds.stateV dataArg
      let ds1 : DState :=
        { stateV := ds.stateV, reg := cr.1,
          trace := ds.trace ++ [⟨sub.listener, sub.cbRef, ds.stateV, dataArg⟩] }
      let ds2 := match cr.2.stateF with
        | some newSt =>
          let changes := changedState ds1.stateV newSt
          changes.foldl (fun d p => dispatchF env fuel p none d)
            { ds1 with stateV := newSt }
        | none => ds1
      let ds3 := match cr.2.dispatchF with
        | none => ds2
        | some (.one d) =>
          match d.w with
          | some v =>
            if truthy v then dispatchF env fuel d.toEv (some v) ds2
            else dispatchF env fuel d.toEv none ds2
          | none => dispatchF env fuel d.toEv none ds2
        | some (.many l) =>
          l.foldl (fun s d =>
            match d.w with
            | some v =>
              if truthy v then dispatchF env fuel d.toEv (some v) s
              else dispatchF env fuel d.toEv none s
            | none => dispatchF env fuel d.toEv none s) ds2
      let rem' := if sub.once then rem else rem ++ [sub]
      loopF env fuel r toEv w (i + 1) rem' ds3
  termination_by structural fuel => fuel

end

mutual

/-- A deep structural equality on values that ignores object identity, written
from the specification's words ("objects/arrays use a structural
(order-sensitive, serialization-based) equality") to contrast with the
source's reference comparison `!==`.  Not part of the source. -/
def specStructEq : JSVal → JSVal → Bool
  | .num a, .num b => a == b
  | .str a, .str b => a == b
  | .bool a, .bool b => a == b
  | .jsNull, .jsNull => true
  | .undefinedV, .undefinedV => true
  | .obj _ fa, .obj _ fb => specStructEqFields fa fb
  | _, _ => false

/-- Field-list companion of `specStructEq`. -/
def specStructEqFields : List (String × JSVal) → List (String × JSVal) → Bool
  | [], [] => true
  | (k1, v1) :: r1, (k2, v2) :: r2 =>
    k1 == k2 && specStructEq v1 v2 && specStructEqFields r1 r2
  | _, _ => false

end

end ShapeX

namespace ShapeX

/-! ## Instance-level wrappers

The container returned by `ShapeX(initialState)` closes over `_state` and the
registry together; these wrappers present the registry operations and the
`state` accessor at the level of the full instance state `DState`.
`subscriptionCount` and `subscriptions` read the registry only and are used
directly on `DState.reg`. -/

/-- `subscribe` seen at the instance level: only the registry part moves. -/
def subscribeD (ds : DState) (l : String) (c : Nat) : DState × Nat :=
  let r := subscribe ds.reg l c
  ({ ds with reg := r.1 }, r.2)

/-- `subscribeOnce` seen at the instance level. -/
def subscribeOnceD (ds : DState) (l : String) (c : Nat) : DState × Nat :=
  let r := subscribeOnce ds.reg l c
  ({ ds with reg := r.1 }, r.2)

/-- `unsubscribe` seen at the instance level. -/
def unsubscribeD (ds : DState) (l : String) : DState :=
  { ds with reg := unsubscribe ds.reg l }

/-- `state` (shapex.ts lines 323-325): returns the current `_state`. -/
def state (ds : DState) : JSVal :=
  ds.stateV

/-- A registry-only public operation (the three that modify the registry;
`subscriptionCount` and `subscriptions` are read-only functions of the
registry and modify nothing by construction). -/
inductive RegOp where
  | sub (l : String) (c : Nat)
  | subOnce (l : String) (c : Nat)
  | unsub (l : String)

/-- Run one registry-only operation on the instance. -/
def applyRegOp (ds : DState) : RegOp → DState
  | .sub l c => (subscribeD ds l c).1
  | .subOnce l c => (subscribeOnceD ds l c).1
  | .unsub l => unsubscribeD ds l

/-- `n` successive top-level `dispatch` calls to the same name, no data. -/
def iterDispatch (env : Env) (fuel : Nat) (name : String) :
    Nat → DState → DState
  | 0, ds => ds
  | n + 1, ds => iterDispatch env fuel name n (dispatchF env fuel name none ds)

/-! ## Concrete host programs used by the claims

Callbacks are written exactly like the callbacks of the repository's test
suite: `(state) => ({ state })` observers, an `increment` handler returning a
freshly allocated `{ ...state, counter: state.counter + 1 }`, and so on.
Fresh JS allocations get object ids unused by the states they are diffed
against. -/

/-- `(state) => ({ state })`: records the call, returns the same state. -/
def obsCb : EventCallback := fun reg s _ => (reg, ⟨some s, none⟩)

/-- `(state) => ({})`: observe-only callback, returns an empty response. -/
def pureObsCb : EventCallback := fun reg _ _ => (reg, ⟨none, none⟩)

/-- `(state) => ({ state: { ...state, counter: state.counter + 1 } })` for a
flat counter state; the result is a fresh object (id 1). -/
def incCb : EventCallback := fun reg s _ =>
  match s with
  | .obj _ [("counter", .num c)] =>
    (reg, ⟨some (.obj 1 [("counter", .num (c + 1))]), none⟩)
  | _ => (reg, ⟨none, none⟩)

/-- Initial empty registry of a fresh instance. -/
def reg0 : Reg := ⟨[], [], 0⟩

/-- The initial state `{ counter: 1 }` (heap id 0). -/
def counterState : JSVal := .obj 0 [("counter", .num 1)]

/-- Scenario for C1: callback 0 observes the counter path, callback 1 is the
`increment` handler. -/
def envC1 : Env := fun c => match c with | 0 => obsCb | _ => incCb

/-- C1 as the claim literally says: the state-change listener registered
under `"$counter"` (sentinel immediately followed by the key). -/
def dsC1sentinel : DState :=
  ⟨counterState, (subscribe (subscribe reg0 "$counter" 0).1 "increment" 1).1, []⟩

/-- C1 as the code behaves: the state-change listener registered under
`"$.counter"`. -/
def dsC1dot : DState :=
  ⟨counterState, (subscribe (subscribe reg0 "$.counter" 0).1 "increment" 1).1, []⟩

/-- Nested state `{ a: { x: 1 } }` (ids 0, 1). -/
def nestedOld : JSVal := .obj 0 [("a", .obj 1 [("x", .num 1)])]

/-- A freshly constructed state structurally equal to `nestedOld` (new ids
2, 3), as produced by a callback returning `{ a: { x: 1 } }`. -/
def nestedFresh : JSVal := .obj 2 [("a", .obj 3 [("x", .num 1)])]

/-- Callback returning the freshly constructed structurally-equal state. -/
def freshSameCb : EventCallback := fun reg _ _ => (reg, ⟨some nestedFresh, none⟩)

/-- Scenario for C3's counterexample: callback 0 observes `$.a`, callback 1
answers the `same` event with `nestedFresh`. -/
def envC3 : Env := fun c => match c with | 0 => obsCb | _ => freshSameCb

/-- Instance for C3's counterexample. -/
def dsC3 : DState :=
  ⟨nestedOld, (subscribe (subscribe reg0 "$.a" 0).1 "same" 1).1, []⟩

/-- Callback answering `same` with a fresh flat object carrying the same
counter value (id 5). -/
def flatSameCb : EventCallback := fun reg _ _ =>
  (reg, ⟨some (.obj 5 [("counter", .num 1)]), none⟩)

/-- Scenario for C3's amended claim: observer on `$.counter`, a `same` event
resolving to a structurally-equal flat state, and an `increment` event. -/
def envC3flat : Env := fun c =>
  match c with | 0 => obsCb | 1 => flatSameCb | _ => incCb

/-- Instance for C3's amended claim. -/
def dsC3flat : DState :=
  ⟨counterState,
   (subscribe (subscribe (subscribe reg0 "$.counter" 0).1 "same" 1).1
     "increment" 2).1, []⟩

/-- A callback that, while running, calls the instance's `subscribe` to add
callback 1 under the same event name `"A"` (a host closure capturing the
instance), and returns an empty response. -/
def adderCb : EventCallback := fun reg _ _ => ((subscribe reg "A" 1).1, ⟨none, none⟩)

/-- Scenario for C4: callback 0 adds callback 1 to `"A"` mid-dispatch. -/
def envC4 : Env := fun c => match c with | 0 => adderCb | _ => pureObsCb

/-- Instance for C4: one subscription to `"A"` (callback 0). -/
def dsC4 : DState := ⟨.obj 0 [], (subscribe reg0 "A" 0).1, []⟩

/-- The JS array `[5]` (an object with index key `"0"`, id 9). -/
def payload5 : JSVal := .obj 9 [("0", .num 5)]

/-- `"A"`'s first subscriber: requests a follow-up dispatch to `"B"` with
payload `[5]`. -/
def aFollowCb : EventCallback := fun reg _ _ =>
  (reg, ⟨none, some (.one ⟨"B", some payload5⟩)⟩)

/-- `"B"`'s subscriber: requests a follow-up dispatch to `"C"` (its own
nested cascade). -/
def bFollowCb : EventCallback := fun reg _ _ =>
  (reg, ⟨none, some (.one ⟨"C", none⟩)⟩)

/-- Scenario for C5: callbacks 0 (on A), 1 (on B), 2 (on C), 3 (second
subscriber of A). -/
def envC5 : Env := fun c =>
  match c with | 0 => aFollowCb | 1 => bFollowCb | _ => pureObsCb

/-- Instance for C5: subscribe order A(0), B(1), C(2), A(3). -/
def dsC5 : DState :=
  ⟨.obj 0 [],
   (subscribe (subscribe (subscribe (subscribe reg0 "A" 0).1 "B" 1).1
     "C" 2).1 "A" 3).1, []⟩

/-- A one-shot callback for `"e"` that, on its first (data-less) call,
requests a follow-up dispatch to `"e"` itself with payload `1`; on a call
with data it observes only.  The follow-up terminates. -/
def onceReentrantCb : EventCallback := fun reg _ d =>
  match d with
  | none => (reg, ⟨none, some (.one ⟨"e", some (.num 1)⟩)⟩)
  | some _ => (reg, ⟨none, none⟩)

/-- Scenario for C6's counterexample. -/
def envC6 : Env := fun _ => onceReentrantCb

/-- Instance for C6's counterexample: a single one-shot subscription on
`"e"`. -/
def dsC6 : DState := ⟨.obj 0 [], (subscribeOnce reg0 "e" 0).1, []⟩

/-- Registry holding exactly one one-shot subscription on `"test-event"`
(callback 0), as in the repository's `subscribeOnce` test. -/
def onceReg : Reg := (subscribeOnce reg0 "test-event" 0).1

/-- Environment whose every callback observes only. -/
def envPure : Env := fun _ => pureObsCb

/-- Host program with a single quantified one-shot callback: every callback
reference is `(state, data) => ({ state: f state data })` for an arbitrary
state choice `f` (a callback that returns no `state` field is `f` returning
`none`), with no follow-up dispatches. -/
def onceEnv (f : JSVal → Option JSVal → Option JSVal) : Env :=
  fun _ => fun reg s d => (reg, ⟨f s d, none⟩)

/-- `"parent"`'s subscriber: requests a follow-up dispatch to `"child"` with
the falsy payload `0`. -/
def falsyFollowCb : EventCallback := fun reg _ _ =>
  (reg, ⟨none, some (.one ⟨"child", some (.num 0)⟩)⟩)

/-- Scenario for C9's follow-up half: callback 0 on `"parent"`, observer 1 on
`"child"`. -/
def envC9 : Env := fun c => match c with | 0 => falsyFollowCb | _ => pureObsCb

/-- Instance for C9's follow-up half. -/
def dsC9 : DState :=
  ⟨.obj 0 [], (subscribe (subscribe reg0 "parent" 0).1 "child" 1).1, []⟩

end ShapeX

namespace ShapeX

/-! ## General lemmas about the model -/

theorem contains_iff_mem (l : List String) (a : String) :
    l.contains a = true ↔ a ∈ l := by
  simp [List.contains_eq_any_beq]

theorem mem_dedupFirst (p : String) :
    ∀ (l seen : List String), p ∈ dedupFirst seen l ↔ p ∈ l ∧ p ∉ seen := by
  intro l
  induction l with
  | nil => intro seen; simp [dedupFirst]
  | cons x xs ih =>
    intro seen
    rw [dedupFirst]
    by_cases hx : seen.contains x = true
    · rw [if_pos hx, ih seen]
      have hxseen : x ∈ seen := (contains_iff_mem seen x).mp hx
      constructor
      · rintro ⟨h1, h2⟩
        exact ⟨List.mem_cons_of_mem _ h1, h2⟩
      · rintro ⟨h1, h2⟩
        rcases List.mem_cons.mp h1 with rfl | h1
        · exact absurd hxseen h2
        · exact ⟨h1, h2⟩
    · rw [if_neg hx]
      have hxseen : x ∉ seen := fun h => hx ((contains_iff_mem seen x).mpr h)
      constructor
      · intro h
        rcases List.mem_cons.mp h with rfl | h
        · exact ⟨List.mem_cons_self _ _, hxseen⟩
        · rcases (ih (x :: seen)).mp h with ⟨h1, h2⟩
          refine ⟨List.mem_cons_of_mem _ h1, fun hs => h2 (List.mem_cons_of_mem _ hs)⟩
      · rintro ⟨h1, h2⟩
        rcases List.mem_cons.mp h1 with rfl | h1
        · exact List.mem_cons_self _ _
        · by_cases hpx : p = x
          · subst hpx; exact List.mem_cons_self _ _
          · refine List.mem_cons_of_mem _ ((ih (x :: seen)).mpr ⟨h1, ?_⟩)
            intro hs
            rcases List.mem_cons.mp hs with h | h
            · exact hpx h
            · exact h2 h

/-- Membership in the diff output comes from the concatenation of `added`,
`removed` and `changed`. -/
theorem mem_differ_iff (oldState newState : JSVal) (p : String) :
    p ∈ differ oldState newState ↔
      p ∈ ((paths newState "$").map Prod.fst).filter
            (fun q => !(((paths oldState "$").map Prod.fst).contains q)) ++
          (((paths oldState "$").map Prod.fst).filter
            (fun q => !(((paths newState "$").map Prod.fst).contains q)) ++
           ((((paths oldState "$").map Prod.fst).filter
              (fun q => ((paths newState "$").map Prod.fst).contains q)).filter
            (fun q => !(strictEq (valueAt (paths oldState "$") q)
                                 (valueAt (paths newState "$") q))))) := by
  rw [differ]
  rw [mem_dedupFirst]
  simp [List.append_assoc]

end ShapeX

namespace ShapeX

/-- One-step unfolding of `dispatchF` at positive fuel. -/
theorem dispatchF_succ (env : Env) (fuel : Nat) (toEv : String)
    (w : Option JSVal) (ds : DState) :
    dispatchF env (fuel + 1) toEv w ds =
      if mapHas ds.reg.subs toEv then
        match mapGet ds.reg.subs toEv with
        | some r =>
          let p := loopF env fuel r toEv w 0 [] ds
          let ds1 := p.1
          { ds1 with reg := { ds1.reg with
              subs := mapSet ds1.reg.subs toEv ds1.reg.heap.length,
              heap := ds1.reg.heap ++ [p.2] } }
        | none => ds
      else ds := rfl

/-- One-step unfolding of `loopF` at positive fuel. -/
theorem loopF_succ (env : Env) (fuel r : Nat) (toEv : String)
    (w : Option JSVal) (i : Nat) (rem : List SubRec) (ds : DState) :
    loopF env (fuel + 1) r toEv w i rem ds =
      match (heapGet ds.reg.heap r)[i]? with
      | none => (ds, rem)
      | some sub =>
        let dataArg := match w with
          | some v => if truthy v then some v else none
          | none => none
        let cr := env sub.cbRef ds.reg ds.stateV dataArg
        let ds1 : DState :=
          { stateV := ds.stateV, reg := cr.1,
            trace := ds.trace ++ [⟨sub.listener, sub.cbRef, ds.stateV, dataArg⟩] }
        let ds2 := match cr.2.stateF with
          | some newSt =>
            let changes := changedState ds1.stateV newSt
            changes.foldl (fun d p => dispatchF env fuel p none d)
              { ds1 with stateV := newSt }
          | none => ds1
        let ds3 := match cr.2.dispatchF with
          | none => ds2
          | some (.one d) =>
            match d.w with
            | some v =>
              if truthy v then dispatchF env fuel d.toEv (some v) ds2
              else dispatchF env fuel d.toEv none ds2
            | none => dispatchF env fuel d.toEv none ds2
          | some (.many l) =>
            l.foldl (fun s d =>
              match d.w with
              | some v =>
                if truthy v then dispatchF env fuel d.toEv (some v) s
                else dispatchF env fuel d.toEv none s
              | none => dispatchF env fuel d.toEv none s) ds2
        let rem' := if sub.once then rem else rem ++ [sub]
        loopF env fuel r toEv w (i + 1) rem' ds3 := rfl

/-- Fuel exhaustion leaves the machine untouched. -/
theorem dispatchF_zero (env : Env) (toEv : String) (w : Option JSVal)
    (ds : DState) : dispatchF env 0 toEv w ds = ds := rfl

/-- The early return of `dispatch`: no map entry for the name means the
whole machine state is returned unchanged (at any fuel). -/
theorem dispatchF_not_has (env : Env) (fuel : Nat) (toEv : String)
    (w : Option JSVal) (ds : DState) (h : mapHas ds.reg.subs toEv = false) :
    dispatchF env fuel toEv w ds = ds := by
  cases fuel with
  | zero => rfl
  | succ f => simp [dispatchF, h]

/-- Folding `dispatch` over a list of names none of which has a map entry
does nothing. -/
theorem foldl_dispatch_no_subs (env : Env) (fuel : Nat) (l : List String)
    (ds : DState) (h : ∀ p ∈ l, mapHas ds.reg.subs p = false) :
    l.foldl (fun d p => dispatchF env fuel p none d) ds = ds := by
  induction l with
  | nil => rfl
  | cons x xs ih =>
    rw [List.foldl_cons,
      dispatchF_not_has env fuel x none ds (h x (List.mem_cons_self _ _))]
    exact ih fun p hp => h p (List.mem_cons_of_mem _ hp)

/-- The subscriber loop over an empty (or exhausted) array ends at once. -/
theorem loopF_empty (env : Env) (fuel r : Nat) (toEv : String)
    (w : Option JSVal) (i : Nat) (rem : List SubRec) (ds : DState)
    (h : heapGet ds.reg.heap r = []) :
    loopF env fuel r toEv w i rem ds = (ds, rem) := by
  cases fuel with
  | zero => rfl
  | succ f => simp [loopF, h]

theorem mapHas_of_mapGet {m : List (String × Nat)} {k : String} {r : Nat}
    (h : mapGet m k = some r) : mapHas m k = true := by
  rw [mapGet] at h
  cases hf : m.find? (fun e => e.1 == k) with
  | none => rw [hf] at h; simp at h
  | some e =>
    have hmem := List.mem_of_find?_eq_some hf
    have hp := List.find?_some hf
    exact List.any_eq_true.mpr ⟨e, hmem, hp⟩

theorem mapGet_mapSet_self (m : List (String × Nat)) (k : String) (v : Nat) :
    mapGet (mapSet m k v) k = some v := by
  induction m with
  | nil => simp [mapSet, mapGet]
  | cons e rest ih =>
    by_cases he : e.1 = k
    · simp [mapSet, he, mapGet]
    · have : (e.1 == k) = false := beq_eq_false_iff_ne.mpr he
      simp [mapSet, this, mapGet, List.find?] at ih ⊢
      exact ih

theorem heapGet_append_self (h : List (List SubRec)) (v : List SubRec) :
    heapGet (h ++ [v]) h.length = v := by
  induction h with
  | nil => rfl
  | cons a rest ih =>
    simp only [List.cons_append, heapGet, List.length_cons, List.getD_cons_succ] at ih ⊢
    exact ih

end ShapeX

namespace ShapeX

mutual

/-- Every path produced by `paths v pre` extends `pre` by a dot and a
suffix. -/
theorem paths_dot (v : JSVal) (pre q : String)
    (h : q ∈ (paths v pre).map Prod.fst) :
    ∃ t, q.data = pre.data ++ '.' :: t := by
  match v with
  | .num _ | .str _ | .bool _ | .jsNull | .undefinedV => simp [paths] at h
  | .obj _ fields => exact pathsFields_dot fields pre q (by simpa [paths] using h)

/-- Companion of `paths_dot` for field lists. -/
theorem pathsFields_dot (fs : List (String × JSVal)) (pre q : String)
    (h : q ∈ (pathsFields fs pre).map Prod.fst) :
    ∃ t, q.data = pre.data ++ '.' :: t := by
  match fs with
  | [] => simp [pathsFields] at h
  | (k, value) :: rest =>
    rw [pathsFields] at h
    simp only [List.map_cons, List.map_append, List.mem_cons,
      List.mem_append] at h
    rcases h with h | h | h
    · refine ⟨k.data, ?_⟩
      rw [h]
      simp [String.data_append, List.append_assoc]
    · rcases paths_dot value (pre ++ "." ++ k) q h with ⟨t, ht⟩
      refine ⟨k.data ++ '.' :: t, ?_⟩
      rw [ht]
      simp [String.data_append, List.append_assoc]
    · exact pathsFields_dot rest pre q h

end

/-- Every change path reported by the differ starts with the two characters
`$.`. -/
theorem changedState_dot (oldState newState : JSVal) (p : String)
    (hp : p ∈ changedState oldState newState) :
    ∃ t, p.data = '$' :: '.' :: t := by
  rw [changedState, mem_differ_iff] at hp
  have hsrc : p ∈ (paths newState "$").map Prod.fst ∨
      p ∈ (paths oldState "$").map Prod.fst := by
    rcases List.mem_append.mp hp with h | h
    · exact Or.inl (List.mem_of_mem_filter h)
    · rcases List.mem_append.mp h with h | h
      · exact Or.inr (List.mem_of_mem_filter h)
      · exact Or.inr (List.mem_of_mem_filter (List.mem_of_mem_filter h))
  have : ∃ t, p.data = ("$" : String).data ++ '.' :: t := by
    rcases hsrc with h | h
    · exact paths_dot _ _ _ h
    · exact paths_dot _ _ _ h
  simpa using this

end ShapeX

namespace ShapeX

/-- Inside the subscriber loop a falsy `withData` behaves exactly like an
absent one: the ternary `withData ? callback(_state, withData) :
callback(_state)` takes the no-data branch at every iteration. -/
theorem loopF_falsy (env : Env) (v : JSVal) (hv : truthy v = false) :
    ∀ (fuel r : Nat) (toEv : String) (i : Nat) (rem : List SubRec)
      (ds : DState),
      loopF env fuel r toEv (some v) i rem ds =
        loopF env fuel r toEv none i rem ds := by
  intro fuel
  induction fuel with
  | zero => intro _ _ _ _ _; rfl
  | succ f ih =>
    intro r toEv i rem ds
    rw [loopF, loopF]
    cases hx : (heapGet ds.reg.heap r)[i]? with
    | none => rfl
    | some sub =>
      simp only [hv, Bool.false_eq_true, if_false]
      rw [ih]

/-- `dispatch(name, withData)` with a defined but falsy `withData` is the
same as `dispatch(name)`. -/
theorem dispatchF_falsy (env : Env) (fuel : Nat) (toEv : String) (v : JSVal)
    (ds : DState) (hv : truthy v = false) :
    dispatchF env fuel toEv (some v) ds = dispatchF env fuel toEv none ds := by
  cases fuel with
  | zero => rfl
  | succ f =>
    rw [dispatchF, dispatchF]
    simp only [loopF_falsy env v hv]

end ShapeX

namespace ShapeX

/-- If no callback of the environment ever returns a defined `state` field,
then `dispatch` (and its subscriber loop) never changes `_state`. -/
theorem dispatchF_stateV_of_no_state (env : Env)
    (henv : ∀ c reg s d, ((env c) reg s d).2.stateF = none) :
    ∀ fuel : Nat,
      (∀ toEv w ds, (dispatchF env fuel toEv w ds).stateV = ds.stateV) ∧
      (∀ r toEv w i rem ds,
        ((loopF env fuel r toEv w i rem ds).1).stateV = ds.stateV) := by
  intro fuel
  induction fuel with
  | zero => exact ⟨fun _ _ _ => rfl, fun _ _ _ _ _ _ => rfl⟩
  | succ f ih =>
    obtain ⟨ihd, ihl⟩ := ih
    have hfold : ∀ (l : List DispatchReq) (d0 : DState),
        (l.foldl (fun s d =>
          match d.w with
          | some v =>
            if truthy v then dispatchF env f d.toEv (some v) s
            else dispatchF env f d.toEv none s
          | none => dispatchF env f d.toEv none s) d0).stateV = d0.stateV := by
      intro l
      induction l with
      | nil => intro _; rfl
      | cons d rest ihr =>
        intro d0
        rw [List.foldl_cons, ihr]
        cases d.w with
        | none => exact ihd _ _ _
        | some v =>
          by_cases hv : truthy v = true
          · simp only [hv, if_true]; exact ihd _ _ _
          · simp only [hv, Bool.false_eq_true, if_false]; exact ihd _ _ _
    constructor
    · intro toEv w ds
      rw [dispatchF]
      by_cases h : mapHas ds.reg.subs toEv = true
      · simp only [h, if_true]
        cases hg : mapGet ds.reg.subs toEv with
        | none => rfl
        | some r =>
          show ((loopF env f r toEv w 0 [] ds).1).stateV = ds.stateV
          exact ihl r toEv w 0 [] ds
      · simp [h]
    · intro r toEv w i rem ds
      rw [loopF_succ]
      cases hx : (heapGet ds.reg.heap r)[i]? with
      | none => rfl
      | some sub =>
        simp only []
        rw [ihl]
        rw [henv sub.cbRef ds.reg ds.stateV _]
        simp only []
        cases hd : (env sub.cbRef ds.reg ds.stateV
            (match w with
             | some v => if truthy v then some v else none
             | none => none)).2.dispatchF with
        | none => rfl
        | some df =>
          cases df with
          | one d =>
            simp only []
            cases d.w with
            | none => exact ihd _ _ _
            | some v =>
              by_cases hv : truthy v = true
              · simp only [hv, if_true]; exact ihd _ _ _
              · simp only [hv, Bool.false_eq_true, if_false]; exact ihd _ _ _
          | many l => exact hfold l _

end ShapeX

namespace ShapeX

/-- `mapHas` is membership among the keys. -/
theorem mapHas_iff_mem_keys (m : List (String × Nat)) (k : String) :
    mapHas m k = true ↔ k ∈ m.map Prod.fst := by
  rw [mapHas, List.any_eq_true]
  constructor
  · rintro ⟨e, he, hbeq⟩
    exact List.mem_map.mpr ⟨e, he, (beq_iff_eq.mp hbeq).symm ▸ rfl⟩
  · intro hk
    rcases List.mem_map.mp hk with ⟨e, he, hfst⟩
    exact ⟨e, he, beq_iff_eq.mpr hfst⟩

theorem mem_keys_mapSet (m : List (String × Nat)) (k : String) (v : Nat) :
    k ∈ (mapSet m k v).map Prod.fst := by
  induction m with
  | nil => simp [mapSet]
  | cons e rest ih =>
    by_cases he : (e.1 == k) = true
    · simp [mapSet, he]
    · simp only [mapSet, he, Bool.false_eq_true, if_false, List.map_cons,
        List.mem_cons]
      exact Or.inr ih

/-- The subscription map after `subscribe`: the heap changed, the key set
gained `l` (if it was absent). -/
theorem subscribe_subs (reg : Reg) (l : String) (c : Nat) :
    (subscribe reg l c).1.subs =
      if mapHas reg.subs l then reg.subs
      else mapSet reg.subs l reg.heap.length := by
  rw [subscribe]
  by_cases h : mapHas reg.subs l = true
  · simp only [h, Bool.not_true, Bool.false_eq_true, if_false, if_true]
    cases hg : mapGet reg.subs l <;> simp
  · simp only [Bool.not_eq_true] at h
    simp only [h, Bool.not_false, if_true, Bool.false_eq_true, if_false]
    cases hg : mapGet (mapSet reg.subs l reg.heap.length) l <;> simp

/-- Same key-set fact for `subscribeOnce`. -/
theorem subscribeOnce_subs (reg : Reg) (l : String) (c : Nat) :
    (subscribeOnce reg l c).1.subs =
      if mapHas reg.subs l then reg.subs
      else mapSet reg.subs l reg.heap.length := by
  rw [subscribeOnce]
  by_cases h : mapHas reg.subs l = true
  · simp only [h, Bool.not_true, Bool.false_eq_true, if_false, if_true]
    cases hg : mapGet reg.subs l <;> simp
  · simp only [Bool.not_eq_true] at h
    simp only [h, Bool.not_false, if_true, Bool.false_eq_true, if_false]
    cases hg : mapGet (mapSet reg.subs l reg.heap.length) l <;> simp

/-- After `subscribe(l, ...)` the name `l` is listed by `subscriptions()`. -/
theorem mem_subscriptions_subscribe (reg : Reg) (l : String) (c : Nat) :
    l ∈ subscriptions (subscribe reg l c).1 := by
  rw [subscriptions, subscribe_subs]
  by_cases h : mapHas reg.subs l = true
  · rw [if_pos h]
    exact (mapHas_iff_mem_keys _ _).mp h
  · rw [if_neg (by simpa using h)]
    exact mem_keys_mapSet _ _ _

/-- After `subscribeOnce(l, ...)` the name `l` is listed by
`subscriptions()`. -/
theorem mem_subscriptions_subscribeOnce (reg : Reg) (l : String) (c : Nat) :
    l ∈ subscriptions (subscribeOnce reg l c).1 := by
  rw [subscriptions, subscribeOnce_subs]
  by_cases h : mapHas reg.subs l = true
  · rw [if_pos h]
    exact (mapHas_iff_mem_keys _ _).mp h
  · rw [if_neg (by simpa using h)]
    exact mem_keys_mapSet _ _ _

/-- After `unsubscribe(l)` the name `l` is never listed by
`subscriptions()`. -/
theorem not_mem_subscriptions_unsubscribe (reg : Reg) (l : String) :
    l ∉ subscriptions (unsubscribe reg l) := by
  rw [subscriptions, unsubscribe]
  by_cases h : mapHas reg.subs l = true
  · rw [if_pos h]
    intro hmem
    rcases List.mem_map.mp hmem with ⟨e, he, hfst⟩
    have := List.of_mem_filter he
    rw [hfst] at this
    simp [bne] at this
  · rw [if_neg h]
    intro hmem
    exact h ((mapHas_iff_mem_keys _ _).mpr hmem)

/-- The subscriber loop started past the end of the array returns at once. -/
theorem loopF_past_end (env : Env) (fuel r : Nat) (toEv : String)
    (w : Option JSVal) (i : Nat) (rem : List SubRec) (ds : DState)
    (h : (heapGet ds.reg.heap r)[i]? = none) :
    loopF env fuel r toEv w i rem ds = (ds, rem) := by
  cases fuel with
  | zero => rfl
  | succ f => simp [loopF_succ, h]

end ShapeX

namespace ShapeX

/-- `mapHas` on a single-entry map is the key comparison. -/
theorem mapHas_single_false (e : String) (r : Nat) (p : String)
    (h : (e == p) = false) : mapHas [(e, r)] p = false := by
  simp [mapHas, h]

/-- No change path reported by the differ equals `"test-event"` (change
paths start with the characters `$.`). -/
theorem test_event_beq_changed_false (oldState newState : JSVal) (p : String)
    (hp : p ∈ changedState oldState newState) :
    (("test-event" : String) == p) = false := by
  rcases changedState_dot oldState newState p hp with ⟨t, hd⟩
  apply beq_eq_false_iff_ne.mpr
  intro he
  rw [← he] at hd
  rw [show ("test-event" : String).data =
    't' :: 'e' :: 's' :: 't' :: '-' :: 'e' :: 'v' :: 'e' :: 'n' :: 't' :: []
    from rfl] at hd
  injection hd with h1 _
  exact absurd h1 (by decide)

/-- Dispatching a name whose registry entry is an empty array leaves the
state and the trace unchanged, and the entry is replaced by a fresh empty
array: so any number of further dispatches also leave them unchanged. -/
theorem iterDispatch_consumed (env : Env) (fuel : Nat) (name : String)
    (n : Nat) :
    ∀ (ds : DState) (r : Nat), mapGet ds.reg.subs name = some r →
      heapGet ds.reg.heap r = [] →
      (iterDispatch env fuel name n ds).trace = ds.trace ∧
      (iterDispatch env fuel name n ds).stateV = ds.stateV := by
  induction n with
  | zero => intro ds r _ _; exact ⟨rfl, rfl⟩
  | succ k ih =>
    intro ds r hg hh
    rw [iterDispatch]
    cases fuel with
    | zero => exact ih ds r hg hh
    | succ g =>
      rw [dispatchF_succ]
      have h1 : mapHas ds.reg.subs name = true := mapHas_of_mapGet hg
      rw [if_pos h1, hg]
      simp only []
      rw [loopF_empty _ _ _ _ _ _ _ _ hh]
      simp only []
      have := ih { ds with reg := { ds.reg with
          subs := mapSet ds.reg.subs name ds.reg.heap.length,
          heap := ds.reg.heap ++ [[]] } } ds.reg.heap.length
        (mapGet_mapSet_self _ _ _) (heapGet_append_self _ _)
      exact this

end ShapeX


namespace ShapeX

/-- Symbolic evaluation of the first dispatch consuming the one-shot
subscription of `onceReg`: the callback runs once (any state it returns is
installed; its change paths all start with `$.` and have no subscribers, so
the nested dispatches are no-ops), and the retained list stored for
`"test-event"` is empty. -/
theorem once_first_dispatch (f : JSVal → Option JSVal → Option JSVal)
    (s0 : JSVal) (F : Nat) :
    dispatchF (onceEnv f) (F + 1 + 1) "test-event" none ⟨s0, onceReg, []⟩ =
      ⟨(match f s0 none with | some n => n | none => s0),
       ⟨[[⟨"test-event", 0, true⟩], []], [("test-event", 1)], 1⟩,
       [⟨"test-event", 0, s0, none⟩]⟩ := by
  show (let ds2 : DState := match f s0 none with
          | some newSt => (changedState s0 newSt).foldl
              (fun d p => dispatchF (onceEnv f) F p none d)
              ⟨newSt, onceReg, [⟨"test-event", 0, s0, none⟩]⟩
          | none => ⟨s0, onceReg, [⟨"test-event", 0, s0, none⟩]⟩
        let q := loopF (onceEnv f) F 0 "test-event" none 1 [] ds2
        (⟨q.1.stateV,
          ⟨q.1.reg.heap ++ [q.2],
           mapSet q.1.reg.subs "test-event" q.1.reg.heap.length,
           q.1.reg.nextId⟩,
          q.1.trace⟩ : DState)) = _
  cases hf : f s0 none with
  | none =>
    simp only []
    rw [loopF_past_end _ _ _ _ _ _ _ _ rfl]
    rfl
  | some newSt =>
    simp only []
    rw [foldl_dispatch_no_subs _ _ _ _
      (fun p hp => mapHas_single_false "test-event" 0 p
        (test_event_beq_changed_false s0 newSt p hp))]
    rw [loopF_past_end _ _ _ _ _ _ _ _ rfl]
    rfl

end ShapeX

namespace ShapeX

/-! ## Claim theorems -/

/-- C1, counterexample: in the concrete scenario with initial state
`{ counter: 1 }`, a subscription under `"$counter"` (sentinel immediately
followed by the key) and an `increment` subscription, dispatching
`"increment"` does NOT invoke the `"$counter"` handler (zero invocations,
not one), even though the state does become `{ counter: 2 }`: the engine
re-dispatches the path `"$.counter"` (sentinel, dot, key), not
`"$counter"`. -/
theorem claimC1_counterexample :
    ((dispatchF envC1 10 "increment" none dsC1sentinel).trace.filter
      (fun i => i.listener == "$counter")).length = 0 ∧
    (dispatchF envC1 10 "increment" none dsC1sentinel).stateV =
      .obj 1 [("counter", .num 2)] ∧
    changedState counterState (.obj 1 [("counter", .num 2)]) = ["$.counter"] :=
  ⟨rfl, rfl, rfl⟩

/-- C1 (amended): with the state-change listener registered under
`"$.counter"` — the sentinel root path `"$"` followed by `"."` and the key,
which is the path string the differ produces — dispatching `"increment"` on
initial state `{ counter: 1 }` invokes that handler exactly once, with state
`{ counter: 2 }`, and `state()` afterwards equals `{ counter: 2 }`;
the change path re-dispatched for a changed root key `k` is `"$." ++ k`. -/
theorem claimC1_theorem :
    (dispatchF envC1 10 "increment" none dsC1dot).trace =
      [⟨"increment", 1, counterState, none⟩,
       ⟨"$.counter", 0, .obj 1 [("counter", .num 2)], none⟩] ∧
    (dispatchF envC1 10 "increment" none dsC1dot).stateV =
      .obj 1 [("counter", .num 2)] ∧
    changedState counterState (.obj 1 [("counter", .num 2)]) = ["$.counter"] :=
  ⟨rfl, rfl, rfl⟩

/-- C2, counterexample: diffing `{}` against `{ view: 1 }` yields exactly
the dedicated path `"$.view"` for the newly added key — the diff output does
contain a path for a key present only in `newState`, contradicting the claim
that the walk is driven by the old tree's keys only. -/
theorem claimC2_counterexample :
    changedState (.obj 0 []) (.obj 1 [("view", .num 1)]) = ["$.view"] ∧
    "$.view" ∈ changedState (.obj 0 []) (.obj 1 [("view", .num 1)]) := by
  refine ⟨rfl, ?_⟩
  rw [show changedState (.obj 0 []) (.obj 1 [("view", .num 1)]) = ["$.view"]
    from rfl]
  exact List.mem_singleton_self _

/-- C2 (amended): the differ enumerates the paths of BOTH trees; every path
present in the new tree's enumeration and absent from the old tree's (in
particular the path of any newly added key) appears in the diff output as
its own dedicated `added` path. -/
theorem claimC2_theorem (oldState newState : JSVal) (p : String)
    (hnew : p ∈ (paths newState "$").map Prod.fst)
    (hold : p ∉ (paths oldState "$").map Prod.fst) :
    p ∈ changedState oldState newState := by
  rw [changedState, mem_differ_iff]
  refine List.mem_append.mpr (Or.inl (List.mem_filter.mpr ⟨hnew, ?_⟩))
  have hc : ((paths oldState "$").map Prod.fst).contains p = false := by
    by_cases hc : ((paths oldState "$").map Prod.fst).contains p = true
    · exact absurd ((contains_iff_mem _ _).mp hc) hold
    · simpa using hc
  simp only [hc]
  rfl

/-- C2, witness for the amended theorem at the concrete addition
`{} → { view: 1 }`. -/
theorem claimC2_witness :
    ("$.view" ∈ (paths (.obj 1 [("view", JSVal.num 1)]) "$").map Prod.fst) ∧
    ("$.view" ∉ (paths (.obj 0 []) "$").map Prod.fst) ∧
    "$.view" ∈ changedState (.obj 0 []) (.obj 1 [("view", .num 1)]) :=
  ⟨by decide, by decide, claimC2_theorem _ _ _ (by decide) (by decide)⟩

/-- C3, counterexample: `nestedFresh` is structurally (serialization-)equal
to `nestedOld`, yet the diff is NOT empty — it reports `"$.a"` because the
nested objects are compared with `!==` (by reference), and the state-change
subscription on `"$.a"` does fire when a dispatched callback returns the
structurally-equal fresh state. -/
theorem claimC3_counterexample :
    specStructEq nestedOld nestedFresh = true ∧
    changedState nestedOld nestedFresh = ["$.a"] ∧
    (dispatchF envC3 10 "same" none dsC3).trace =
      [⟨"same", 1, nestedOld, none⟩, ⟨"$.a", 0, nestedFresh, none⟩] :=
  ⟨rfl, rfl, rfl⟩

/-- C3 (amended): the diff compares scalar leaves by value but objects and
arrays by reference.  With a flat scalar state, an event resolving to a
freshly constructed structurally-equal state produces an empty diff and the
`"$.counter"` subscription does not fire; a subsequent event that actually
changes `counter`'s value fires it exactly once (with `{ counter: 2 }`);
but a structurally-equal fresh NESTED object is reported as changed. -/
theorem claimC3_theorem :
    ((dispatchF envC3flat 10 "same" none dsC3flat).trace.filter
      (fun i => i.listener == "$.counter")) = [] ∧
    ((dispatchF envC3flat 10 "increment" none
        (dispatchF envC3flat 10 "same" none dsC3flat)).trace.filter
      (fun i => i.listener == "$.counter")) =
      [⟨"$.counter", 0, .obj 1 [("counter", .num 2)], none⟩] ∧
    changedState nestedOld nestedFresh = ["$.a"] :=
  ⟨rfl, rfl, rfl⟩

/-- C4, counterexample: a subscription added to `"A"` by a callback running
inside a dispatch of `"A"` IS invoked in that same pass (the loop iterates
the live array, not a snapshot): callback 1, added mid-dispatch by callback
0, is invoked once during the very dispatch that added it. -/
theorem claimC4_counterexample :
    ((dispatchF envC4 10 "A" none dsC4).trace.filter
      (fun i => i.cbRef == 1)).length = 1 := rfl

/-- C4 (amended): `dispatch` iterates the live subscriber array
(`_subscriptions.get` returns the array by reference and `subscribe` pushes
onto it), so a subscription added to the same name mid-dispatch is invoked
in the same pass; after the pass it is present in the registry because the
loop visited it and retained it into the replacement list. -/
theorem claimC4_theorem :
    (dispatchF envC4 10 "A" none dsC4).trace =
      [⟨"A", 0, .obj 0 [], none⟩, ⟨"A", 1, .obj 0 [], none⟩] ∧
    subscriptionCount (dispatchF envC4 10 "A" none dsC4).reg (some "A") = 2 :=
  ⟨rfl, rfl⟩

/-- C5: dispatch propagation is depth-first and pre-order: dispatching
`"A"` invokes A's first subscriber, whose follow-up dispatch to `"B"` with
payload `[5]` runs B's subscriber with exactly that payload, whose own
nested cascade to `"C"` also completes, all before A's remaining subscriber
runs. -/
theorem claimC5_theorem :
    (dispatchF envC5 10 "A" none dsC5).trace =
      [⟨"A", 0, .obj 0 [], none⟩, ⟨"B", 1, .obj 0 [], some payload5⟩,
       ⟨"C", 2, .obj 0 [], none⟩, ⟨"A", 3, .obj 0 [], none⟩] := rfl

/-- C6, counterexample: a `subscribeOnce` subscription is NOT always invoked
exactly once — one-shot removal only happens when the dispatch pass ends, so
a terminating nested dispatch to the same name from inside the callback
invokes it a second time: here the one-shot callback on `"e"` runs twice
within the first (and only) dispatch of `"e"`. -/
theorem claimC6_counterexample :
    (dispatchF envC6 10 "e" none dsC6).trace =
      [⟨"e", 0, .obj 0 [], none⟩, ⟨"e", 0, .obj 0 [], some (.num 1)⟩] ∧
    ((dispatchF envC6 10 "e" none dsC6).trace.filter
      (fun i => i.cbRef == 0)).length = 2 :=
  ⟨rfl, rfl⟩

/-- C6 (amended): when the one-shot callback does not itself dispatch (it
may return any new state or none — its change-path re-dispatches find no
subscribers), the subscription is invoked exactly once by the first dispatch
to its name, is then dropped from the retained list (count 0), and any
number of later dispatches to that name never invoke it again. -/
theorem claimC6_theorem (f : JSVal → Option JSVal → Option JSVal)
    (s0 : JSVal) (F n fuel2 : Nat) :
    (dispatchF (onceEnv f) (F + 1 + 1) "test-event" none
      ⟨s0, onceReg, []⟩).trace = [⟨"test-event", 0, s0, none⟩] ∧
    subscriptionCount (dispatchF (onceEnv f) (F + 1 + 1) "test-event" none
      ⟨s0, onceReg, []⟩).reg (some "test-event") = 0 ∧
    (iterDispatch (onceEnv f) fuel2 "test-event" n
      (dispatchF (onceEnv f) (F + 1 + 1) "test-event" none
        ⟨s0, onceReg, []⟩)).trace = [⟨"test-event", 0, s0, none⟩] := by
  rw [once_first_dispatch]
  refine ⟨rfl, rfl, ?_⟩
  rw [(iterDispatch_consumed (onceEnv f) fuel2 "test-event" n
    ⟨(match f s0 none with | some n' => n' | none => s0),
     ⟨[[⟨"test-event", 0, true⟩], []], [("test-event", 1)], 1⟩,
     [⟨"test-event", 0, s0, none⟩]⟩ 1 rfl rfl).1]

/-- C7, counterexample: after the only one-shot subscription of
`"test-event"` is consumed by a dispatch, `subscriptions()` still returns
the name although its subscription count is zero — the retained-list write
`set(name, [])` keeps the key with an empty array. -/
theorem claimC7_counterexample :
    subscriptions (dispatchF envPure 10 "test-event" none
      ⟨.obj 0 [], onceReg, []⟩).reg = ["test-event"] ∧
    subscriptionCount (dispatchF envPure 10 "test-event" none
      ⟨.obj 0 [], onceReg, []⟩).reg (some "test-event") = 0 :=
  ⟨rfl, rfl⟩

/-- C7 (amended): `subscriptions()` returns the distinct names having a map
entry, in insertion order: any `subscribe`/`subscribeOnce` lists the name,
`unsubscribe` delists it, but a name whose subscriptions were all consumed
by dispatch stays listed with count zero. -/
theorem claimC7_theorem :
    (∀ (reg : Reg) (l : String) (c : Nat),
      l ∈ subscriptions (subscribe reg l c).1) ∧
    (∀ (reg : Reg) (l : String) (c : Nat),
      l ∈ subscriptions (subscribeOnce reg l c).1) ∧
    (∀ (reg : Reg) (l : String), l ∉ subscriptions (unsubscribe reg l)) ∧
    subscriptions (dispatchF envPure 10 "test-event" none
      ⟨.obj 0 [], onceReg, []⟩).reg = ["test-event"] ∧
    subscriptionCount (dispatchF envPure 10 "test-event" none
      ⟨.obj 0 [], onceReg, []⟩).reg (some "test-event") = 0 :=
  ⟨mem_subscriptions_subscribe, mem_subscriptions_subscribeOnce,
   not_mem_subscriptions_unsubscribe, rfl, rfl⟩

/-- C8: dispatching a name with no registry entry is a silent no-op — the
entire instance state (state, registry, trace) is returned unchanged, at any
fuel — and unsubscribing an unknown name likewise returns the registry
unchanged. -/
theorem claimC8_theorem :
    (∀ (env : Env) (fuel : Nat) (toEv : String) (w : Option JSVal)
      (ds : DState), mapHas ds.reg.subs toEv = false →
        dispatchF env fuel toEv w ds = ds) ∧
    (∀ (reg : Reg) (l : String), mapHas reg.subs l = false →
        unsubscribe reg l = reg) := by
  refine ⟨dispatchF_not_has, fun reg l h => ?_⟩
  rw [unsubscribe, if_neg (by simp [h])]

/-- C8, witness: dispatch and unsubscribe of the unknown name `"nope"` on a
fresh instance leave everything unchanged. -/
theorem claimC8_witness :
    mapHas (DState.mk (.obj 0 []) reg0 []).reg.subs "nope" = false ∧
    dispatchF envPure 5 "nope" none ⟨.obj 0 [], reg0, []⟩ =
      ⟨.obj 0 [], reg0, []⟩ ∧
    mapHas reg0.subs "nope" = false ∧
    unsubscribe reg0 "nope" = reg0 :=
  ⟨rfl, claimC8_theorem.1 envPure 5 "nope" none ⟨.obj 0 [], reg0, []⟩ rfl,
   rfl, claimC8_theorem.2 reg0 "nope" rfl⟩

/-- C9: a defined but falsy dispatch payload is dropped at the interface:
`dispatch(name, v)` with falsy `v` behaves exactly like `dispatch(name)`
(so every callback is invoked without the data argument), and a follow-up
dispatch request whose `with` payload is falsy (here `0`) re-dispatches with
no arguments — `"child"`'s callback receives no data. -/
theorem claimC9_theorem :
    (∀ (env : Env) (fuel : Nat) (toEv : String) (v : JSVal) (ds : DState),
      truthy v = false →
        dispatchF env fuel toEv (some v) ds = dispatchF env fuel toEv none ds) ∧
    (dispatchF envC9 10 "parent" none dsC9).trace =
      [⟨"parent", 0, .obj 0 [], none⟩, ⟨"child", 1, .obj 0 [], none⟩] :=
  ⟨fun env fuel toEv v ds hv => dispatchF_falsy env fuel toEv v ds hv, rfl⟩

/-- C9, witness: the falsy payload `0` on a concrete dispatch. -/
theorem claimC9_witness :
    truthy (.num 0) = false ∧
    dispatchF envPure 4 "e" (some (.num 0)) ⟨.obj 0 [], reg0, []⟩ =
      dispatchF envPure 4 "e" none ⟨.obj 0 [], reg0, []⟩ :=
  ⟨rfl, claimC9_theorem.1 envPure 4 "e" (.num 0) ⟨.obj 0 [], reg0, []⟩ rfl⟩

/-- C10: the registry-only operations (`subscribe`, `subscribeOnce`,
`unsubscribe` — `subscriptionCount` and `subscriptions` are read-only
functions of the registry) never change the current state: any sequence of
them leaves `state()` untouched; and a dispatch whose callbacks never return
a defined `state` field leaves `_state` unchanged — only a callback
returning a defined `state` can replace it. -/
theorem claimC10_theorem :
    (∀ (ops : List RegOp) (ds : DState),
      state (ops.foldl applyRegOp ds) = state ds) ∧
    (∀ env : Env, (∀ c reg s d, ((env c) reg s d).2.stateF = none) →
      ∀ (fuel : Nat) (toEv : String) (w : Option JSVal) (ds : DState),
        (dispatchF env fuel toEv w ds).stateV = ds.stateV) := by
  constructor
  · intro ops
    induction ops with
    | nil => intro ds; rfl
    | cons op rest ih =>
      intro ds
      rw [List.foldl_cons, ih]
      cases op <;> rfl
  · intro env henv fuel toEv w ds
    exact (dispatchF_stateV_of_no_state env henv fuel).1 toEv w ds

/-- C10, witness: a concrete subscribe/subscribeOnce/unsubscribe sequence
and a concrete observer-only dispatch both leave the state at
`{ counter: 1 }`. -/
theorem claimC10_witness :
    state ([RegOp.sub "a" 0, RegOp.subOnce "b" 1, RegOp.unsub "a"].foldl
      applyRegOp ⟨counterState, reg0, []⟩) = state ⟨counterState, reg0, []⟩ ∧
    (dispatchF envPure 6 "x" none ⟨counterState, reg0, []⟩).stateV =
      counterState :=
  ⟨claimC10_theorem.1 _ _,
   claimC10_theorem.2 envPure (fun _ _ _ _ => rfl) 6 "x" none
     ⟨counterState, reg0, []⟩⟩

end ShapeX
